import Mathlib

/-!
Shallow embedding of `src/main.py` (AngelEyes object-detection UI).

Python floats are modelled as exact rationals (`ℚ`), timestamps from
`time.time()` as rationals and wall-clock readings from `datetime.now()`
as natural numbers of seconds since midnight.  Images are modelled as an
acquired source frame together with the ordered list of OpenCV drawing
calls applied to it: two images are byte-identical exactly when they were
acquired from the same source frame and received the same drawing calls.
`cv2.getTextSize` is modelled as an unspecified measurement oracle.
CPython's `list(set(xs))` has a hash-dependent element order, so it is
modelled as an explicit enumeration function constrained to enumerate the
distinct elements of its argument.
-/

namespace AngelEyes

/-- Measurement oracle for `cv2.getTextSize`: maps (text, fontScale,
thickness) to a (width, height) pair of non-negative pixel sizes. -/
def TextSizeFn : Type := String → ℚ → Nat → Nat × Nat

/-- A bounding box `(x, y, w, h)` in pixel space, as produced by
`net.detect` (`bbox` rows). -/
structure Box where
  x : Int
  y : Int
  w : Int
  h : Int
deriving DecidableEq, Repr

/-- One entry of the `detections` list built in `run`
(`{'box': ..., 'class_name': ..., 'confidence': ..., 'class_id': ...}`). -/
structure Detection where
  box : Box
  class_name : String
  confidence : ℚ
  class_id : Int
deriving DecidableEq, Repr

/-- One entry of `self.detection_history`
(`{'time': ..., 'count': ..., 'objects': ...}`); `time` is the
`datetime.now()` reading, in seconds. -/
structure HistEntry where
  time : Nat
  count : Nat
  objects : List String
deriving DecidableEq, Repr

/-- One OpenCV drawing call, with the arguments the source passes.
`blend` records the `overlay = img.copy(); cv2.rectangle(overlay, p1, p2,
color, -1); img = cv2.addWeighted(img, a, overlay, b, 0)` idiom as a
single pixel transformation. -/
inductive DrawOp where
  | rect (p1 p2 : Int × Int) (color : Nat × Nat × Nat) (thickness : Int)
  | line (p1 p2 : Int × Int) (color : Nat × Nat × Nat) (thickness : Int)
  | text (s : String) (org : Int × Int) (fontScale : ℚ)
      (color : Nat × Nat × Nat) (thickness : Nat)
  | blend (p1 p2 : Int × Int) (color : Nat × Nat × Nat) (a b : ℚ)
deriving DecidableEq, Repr

/-- An image: the identity of the camera frame it was acquired from, its
shape, and the drawing calls applied to it since acquisition.  A freshly
acquired frame has `ops = []`. -/
structure Img where
  src : Nat
  height : Int
  width : Int
  ops : List DrawOp
deriving DecidableEq, Repr

/-- Python `"%.1f" % q` for the non-negative magnitudes the UI prints
(threshold, fps, confidence percentage): one decimal digit, rounding
half up at the tie (ties never arise for the values the claims touch). -/
def fmt1 (q : ℚ) : String :=
  let n : Int := ⌊q * 10 + 1 / 2⌋
  toString (n / 10) ++ "." ++ toString (n % 10)

/-- Two-digit zero padding used by `strftime`. -/
def pad2 (n : Nat) : String :=
  if n < 10 then "0" ++ toString n else toString n

/-- Python `datetime.now().strftime("%H:%M:%S")`, with the clock reading
given as seconds since midnight. -/
def timeHMS (t : Nat) : String :=
  pad2 (t / 3600 % 24) ++ ":" ++ pad2 (t % 3600 / 60) ++ ":" ++ pad2 (t % 60)

/-- The fixed palette `self.colors`. -/
def colors : List (Nat × Nat × Nat) :=
  [(255, 100, 100), (100, 255, 100), (100, 100, 255),
   (255, 255, 100), (255, 100, 255), (100, 255, 255),
   (200, 150, 100), (150, 200, 100), (100, 150, 200)]

/-- Threshold increase: `self.thres = min(1.0, self.thres + 0.05)`. -/
def increase_threshold (t : ℚ) : ℚ := min 1 (t + 1 / 20)

/-- Threshold decrease: `self.thres = max(0.1, self.thres - 0.05)`. -/
def decrease_threshold (t : ℚ) : ℚ := max (1 / 10) (t - 1 / 20)

/-- A threshold command: the `+`/`=` branch or the `-` branch. -/
inductive ThresholdCmd where
  | inc
  | dec
deriving DecidableEq, Repr

/-- Apply one threshold command. -/
def applyCmd (t : ℚ) : ThresholdCmd → ℚ
  | .inc => increase_threshold t
  | .dec => decrease_threshold t

/-- Apply a sequence of threshold commands, oldest first. -/
def runCmds (t : ℚ) (cs : List ThresholdCmd) : ℚ := cs.foldl applyCmd t

/-- State of the frame-rate estimator (`fps_counter`, `fps_start_time`,
`current_fps`). -/
structure FpsState where
  fps_counter : Nat
  fps_start_time : ℚ
  current_fps : ℚ
deriving DecidableEq, Repr

/-- The method `calculate_fps`, with `time.time()` passed in as `now`. -/
def calculate_fps (s : FpsState) (now : ℚ) : FpsState :=
  let c := s.fps_counter + 1
  if c ≥ 30 then
    { fps_counter := 0, fps_start_time := now,
      current_fps := (c : ℚ) / (now - s.fps_start_time) }
  else
    { s with fps_counter := c }

/-- Run the estimator over a list of `time.time()` readings. -/
def runFps (s : FpsState) (ts : List ℚ) : FpsState := ts.foldl calculate_fps s

/-- The history-update block of `run`: append a summary entry when the
detection list is non-empty, then `pop(0)` once when the size exceeds
100. -/
def recordHistory (hist : List HistEntry) (dets : List Detection)
    (now : Nat) : List HistEntry :=
  if dets.isEmpty then hist
  else
    let h := hist ++ [⟨now, dets.length, dets.map (·.class_name)⟩]
    if h.length > 100 then h.tail else h

/-- Run the history tracker from an empty buffer over a sequence of
(per-frame detection list, clock) pairs. -/
def runHistory (frames : List (List Detection × Nat)) : List HistEntry :=
  frames.foldl (fun h f => recordHistory h f.1 f.2) []

/-- The summary entries of the frames that carry at least one detection,
in input order. -/
def frameEntries (frames : List (List Detection × Nat)) : List HistEntry :=
  (frames.filter (fun f => !f.1.isEmpty)).map
    (fun f => ⟨f.2, f.1.length, f.1.map (·.class_name)⟩)

/-- First-seen deduplication, accumulator form: keep each name's first
occurrence, drop later repeats. -/
def firstSeenAux (seen : List String) : List String → List String
  | [] => []
  | a :: rest =>
      if a ∈ seen then firstSeenAux seen rest
      else a :: firstSeenAux (a :: seen) rest

/-- Deduplication preserving first-seen order.  This follows the SPEC's
words ("deduplicates while preserving first-seen order"); the source uses
`list(set(...))` instead, whose order is hash-dependent. -/
def firstSeen (xs : List String) : List String := firstSeenAux [] xs

/-- A list `ys` is a possible CPython enumeration of `set(xs)`: it lists
each distinct element of `xs` exactly once, in some (hash-dependent)
order. -/
def IsPySetList (xs ys : List String) : Prop :=
  ys.Nodup ∧ ∀ a, a ∈ ys ↔ a ∈ xs

/-- The footer's object line: `"Detected: " + ", ".join(unique[:4])`,
plus `"..."` when more than 4 distinct names exist.  `uniq` is the
already-enumerated `unique_objects` list. -/
def objects_text (uniq : List String) : String :=
  let t := "Detected: " ++ String.intercalate ", " (uniq.take 4)
  if uniq.length > 4 then t ++ "..." else t

/-- Mutable fields of `ObjectDetectionUI` that the loop touches, plus the
`img` loop variable and the loop-termination (`break`) flag. -/
structure LoopState where
  thres : ℚ
  show_stats : Bool
  paused : Bool
  fps_counter : Nat
  fps_start_time : ℚ
  current_fps : ℚ
  detection_history : List HistEntry
  img : Img
  quit : Bool
deriving DecidableEq, Repr

/-- Static configuration of a run: the class-name list, whether the model
loaded, the text-measurement oracle, and the `list(set(...))` enumeration
order in effect for this process. -/
structure Config where
  classNames : List String
  model_loaded : Bool
  ts : TextSizeFn
  setList : List String → List String

/-- The method `draw_header`. -/
def draw_header (st : LoopState) (img : Img) : Img :=
  { img with ops := img.ops ++
      [.blend (0, 0) (img.width, 80) (0, 0, 0) (7/10) (3/10),
       .text "AngelEyes - Object Detection" (10, 30) (8/10) (255, 255, 255) 2,
       .text ("Threshold: " ++ fmt1 st.thres ++ " | FPS: " ++ fmt1 st.current_fps)
         (10, 55) (1/2) (150, 255, 150) 1] }

/-- The method `draw_footer_stats`, with the `datetime.now()` reading of
this call passed as `now` and the process's set-enumeration order as
`setList`. -/
def draw_footer_stats (setList : List String → List String) (st : LoopState)
    (img : Img) (dets : List Detection) (now : Nat) : Img :=
  if !st.show_stats then img
  else
    let img1 : Img := { img with ops := img.ops ++
      [.blend (0, img.height - 80) (img.width, img.height) (0, 0, 0) (7/10) (3/10),
       .text ("Objects: " ++ toString dets.length ++ " | Time: " ++ timeHMS now)
         (10, img.height - 50) (6/10) (100, 255, 100) 1] }
    if !dets.isEmpty then
      let detected_objects := dets.map (·.class_name)
      if !detected_objects.isEmpty then
        let unique_objects := setList detected_objects
        { img1 with ops := img1.ops ++
          [.text (objects_text unique_objects) (10, img1.height - 20)
            (1/2) (255, 255, 100) 1] }
      else img1
    else img1

/-- The label string `class_name.upper()`. -/
def labelStr (d : Detection) : String := d.class_name.toUpper

/-- The confidence string `f"{confidence*100:.1f}%"`. -/
def confStr (d : Detection) : String := fmt1 (d.confidence * 100) ++ "%"

/-- `label_y = max(y, 90)`: the label background's bottom edge. -/
def label_y (d : Detection) : Int := max d.box.y 90

/-- `label_bg_height = max(label_h, conf_h) + 15`. -/
def label_bg_height (ts : TextSizeFn) (d : Detection) : Int :=
  ((max (ts (labelStr d) (8/10) 2).2 (ts (confStr d) (1/2) 1).2 : Nat) : Int) + 15

/-- The filled label-background rectangle
`cv2.rectangle(img, (x, label_y - label_bg_height),
(x + max(label_w, conf_w) + 15, label_y), color, -1)`,
as its (top-left, bottom-right) corner pair. -/
def labelBgRect (ts : TextSizeFn) (d : Detection) : (Int × Int) × (Int × Int) :=
  let label_w := (ts (labelStr d) (8/10) 2).1
  let conf_w := (ts (confStr d) (1/2) 1).1
  ((d.box.x, label_y d - label_bg_height ts d),
   (d.box.x + ((max label_w conf_w : Nat) : Int) + 15, label_y d))

/-- The drawing calls the box pass makes for the `i`-th detection. -/
def boxOps (ts : TextSizeFn) (i : Nat) (d : Detection) : List DrawOp :=
  let x := d.box.x
  let y := d.box.y
  let w := d.box.w
  let h := d.box.h
  let color := colors.getD (i % colors.length) (0, 0, 0)
  let label_h := ((ts (labelStr d) (8/10) 2).2 : Int)
  let cl : Int := 20
  [.rect (x, y) (x + w, y + h) color 2,
   .line (x, y) (x + cl, y) color 3,
   .line (x, y) (x, y + cl) color 3,
   .line (x + w, y) (x + w - cl, y) color 3,
   .line (x + w, y) (x + w, y + cl) color 3,
   .line (x, y + h) (x + cl, y + h) color 3,
   .line (x, y + h) (x, y + h - cl) color 3,
   .line (x + w, y + h) (x + w - cl, y + h) color 3,
   .line (x + w, y + h) (x + w, y + h - cl) color 3,
   .rect (labelBgRect ts d).1 (labelBgRect ts d).2 color (-1),
   .rect (labelBgRect ts d).1 (labelBgRect ts d).2 (255, 255, 255) 1,
   .text (labelStr d) (x + 8, label_y d - label_bg_height ts d + label_h + 3)
     (8/10) (255, 255, 255) 2,
   .text (confStr d) (x + 8, label_y d - 3) (1/2) (255, 255, 255) 1]

/-- The method `draw_enhanced_bounding_boxes`. -/
def draw_enhanced_bounding_boxes (ts : TextSizeFn) (img : Img)
    (dets : List Detection) : Img :=
  if dets.isEmpty then img
  else
    { img with ops := img.ops ++ (dets.enum.map (fun p => boxOps ts p.1 p.2)).flatten }

/-- The per-iteration drawing block of `run`: header, boxes, footer, then
the pause banner when `paused` is set. -/
def composeFrame (cfg : Config) (st : LoopState) (img : Img)
    (dets : List Detection) (now : Nat) : Img :=
  let img1 := draw_header st img
  let img2 := draw_enhanced_bounding_boxes cfg.ts img1 dets
  let img3 := draw_footer_stats cfg.setList st img2 dets now
  if st.paused then
    { img3 with ops := img3.ops ++
        [.text "PAUSED - Press P to resume"
          (img3.width / 2 - 150, img3.height / 2) 1 (0, 0, 255) 2] }
  else img3

/-- The detection-building loop of `run`: keep a `(classId, confidence,
box)` triple exactly when `0 <= classId - 1 < len(self.classNames)`. -/
def buildDetections (classNames : List String)
    (results : List (Int × ℚ × Box)) : List Detection :=
  results.foldl (fun acc r =>
    if 0 ≤ r.1 - 1 ∧ r.1 - 1 < (classNames.length : Int) then
      acc ++ [{ box := r.2.2, class_name := classNames.getD (r.1 - 1).toNat "",
                confidence := r.2.1, class_id := r.1 }]
    else acc) []

/-- The Detection a kept triple is turned into. -/
def toDet (classNames : List String) (r : Int × ℚ × Box) : Detection :=
  { box := r.2.2, class_name := classNames.getD (r.1 - 1).toNat "",
    confidence := r.2.1, class_id := r.1 }

/-- The key-handling block at the end of each loop iteration; `key` is
`cv2.waitKey(1) & 0xFF` (255 when no key was pressed). -/
def handle_key (st : LoopState) (key : Nat) : LoopState :=
  if key = 113 ∨ key = 81 then { st with quit := true }
  else if key = 115 ∨ key = 83 then { st with show_stats := !st.show_stats }
  else if key = 112 ∨ key = 80 then { st with paused := !st.paused }
  else if key = 114 ∨ key = 82 then { st with detection_history := [] }
  else if key = 43 ∨ key = 61 then { st with thres := increase_threshold st.thres }
  else if key = 45 then { st with thres := decrease_threshold st.thres }
  else st

/-- External events of one loop iteration: the `cap.read()` result (used
only when not paused; `none` = failure), the `net.detect` outcome
(`Except.error` = the caught exception), the `time.time()` reading, the
`datetime.now()` reading in seconds, and the key byte. -/
structure IterInput where
  cam : Option Img
  detectRes : Except Unit (List (Int × ℚ × Box))
  tTime : ℚ
  clock : Nat
  key : Nat

/-- The frame the iteration hands to the drawing pipeline: the `img`
variable, which is re-read from the camera only when not paused. -/
def frameHanded (st : LoopState) (inp : IterInput) : Option Img :=
  if st.paused then some st.img else inp.cam

/-- One iteration of the `while True` loop in `run`: acquisition (break
on failure), detection (skipped when paused or the model is absent,
exceptions caught as zero detections), history update, drawing, fps
update, display, key handling.  Returns the new state and the displayed
frame (`none` when the iteration broke on a failed read). -/
def stepIter (cfg : Config) (st : LoopState) (inp : IterInput) :
    LoopState × Option Img :=
  match frameHanded st inp with
  | none => ({ st with quit := true }, none)
  | some img0 =>
    let detections : List Detection :=
      if cfg.model_loaded ∧ st.paused = false then
        match inp.detectRes with
        | .ok rs => buildDetections cfg.classNames rs
        | .error _ => []
      else []
    let hist := recordHistory st.detection_history detections inp.clock
    let imgF := composeFrame cfg st img0 detections inp.clock
    let fpsS := calculate_fps
      ⟨st.fps_counter, st.fps_start_time, st.current_fps⟩ inp.tTime
    let st1 : LoopState :=
      { st with detection_history := hist, img := imgF,
                fps_counter := fpsS.fps_counter,
                fps_start_time := fpsS.fps_start_time,
                current_fps := fpsS.current_fps }
    (handle_key st1 inp.key, some imgF)

/-- State at entry to the loop: threshold 0.5, stats on, not paused, fps
fields fresh (`t0` is the constructor's `time.time()` reading), empty
history.  The `img` placeholder is never consulted: it is read only when
`paused` is set, and `paused` starts false. -/
def initState (t0 : ℚ) : LoopState :=
  { thres := 1/2, show_stats := true, paused := false,
    fps_counter := 0, fps_start_time := t0, current_fps := 0,
    detection_history := [], img := ⟨0, 0, 0, []⟩, quit := false }

/-- Threshold values reachable from the initial 0.5 by the two clamped
commands: the multiples of 0.05 in `[0.1, 1.0]`. -/
def ThresReachable (t : ℚ) : Prop := ∃ k : Nat, 2 ≤ k ∧ k ≤ 20 ∧ t = (k : ℚ) / 20

/-- A concrete text-measurement oracle: every string measures 10 × 10. -/
def tsTen : TextSizeFn := fun _ _ _ => (10, 10)

/-- A concrete detection whose box top edge is at `y = 0`, above the
90 px header boundary. -/
def detPerson : Detection := ⟨⟨100, 0, 50, 50⟩, "person", 1/2, 1⟩

/-- A freshly acquired camera frame. -/
def rawFrame : Img := ⟨1, 720, 1280, []⟩

/-- A second freshly acquired camera frame. -/
def rawFrame2 : Img := ⟨2, 720, 1280, []⟩

/-- A concrete configuration for evaluating the pipeline. -/
def cfgDemo : Config := ⟨["person"], true, tsTen, firstSeen⟩

/-- The loop state at entry, with a zero start-of-window time. -/
def stDemo : LoopState := initState 0

/-- The entry state with statistics toggled off. -/
def stNoStats : LoopState := { initState 0 with show_stats := false }

/-- 101 frames, each carrying one detection, at clock readings 0..100. -/
def frames101 : List (List Detection × Nat) :=
  (List.range 101).map (fun i => ([detPerson], i))

/-- Iteration events: a successful read, zero detections, and the key
`p` (112), which toggles pause. -/
def inpFirst : IterInput := ⟨some rawFrame, .ok [], 0, 0, 112⟩

/-- The loop state after that first iteration. -/
def stAfterFirst : LoopState := (stepIter cfgDemo (initState 0) inpFirst).1

/-- Second-iteration events: the camera would deliver a new frame, no
key is pressed (255). -/
def inpSecond : IterInput := ⟨some rawFrame2, .ok [], 1, 1, 255⟩

/-! ## Threshold lemmas (C5) -/

theorem thresReachable_init : ThresReachable (1/2) :=
  ⟨10, by norm_num⟩

theorem thresReachable_bounds {t : ℚ} (h : ThresReachable t) :
    1/10 ≤ t ∧ t ≤ 1 := by
  obtain ⟨k, hk2, hk20, rfl⟩ := h
  constructor
  · rw [show (1 : ℚ)/10 = 2/20 by norm_num, div_le_div_iff_of_pos_right (by norm_num)]
    exact_mod_cast hk2
  · rw [div_le_one (by norm_num : (0:ℚ) < 20)]
    exact_mod_cast hk20

theorem increase_eq_of_ne_one {t : ℚ} (h : ThresReachable t) (h1 : t ≠ 1) :
    increase_threshold t = t + 1/20 := by
  obtain ⟨k, hk2, hk20, rfl⟩ := h
  have hk : k ≠ 20 := by
    rintro rfl
    exact h1 (by norm_num)
  have hle : (k : ℚ)/20 + 1/20 ≤ 1 := by
    rw [div_add_div_same, div_le_one (by norm_num : (0:ℚ) < 20)]
    have hk19 : (k : ℚ) ≤ 19 := by exact_mod_cast Nat.le_of_lt_succ (by omega)
    linarith
  exact min_eq_right hle

theorem increase_at_top : increase_threshold 1 = 1 :=
  min_eq_left (by norm_num)

theorem decrease_eq_of_ne_bot {t : ℚ} (h : ThresReachable t) (h1 : t ≠ 1/10) :
    decrease_threshold t = t - 1/20 := by
  obtain ⟨k, hk2, hk20, rfl⟩ := h
  have hk : k ≠ 2 := by
    rintro rfl
    exact h1 (by norm_num)
  have hle : (1 : ℚ)/10 ≤ (k : ℚ)/20 - 1/20 := by
    rw [div_sub_div_same, show (1 : ℚ)/10 = 2/20 by norm_num,
      div_le_div_iff_of_pos_right (by norm_num)]
    have hk3 : (3 : ℚ) ≤ (k : ℚ) := by exact_mod_cast (by omega : 3 ≤ k)
    linarith
  exact max_eq_right hle

theorem decrease_at_bot : decrease_threshold (1/10) = 1/10 :=
  max_eq_left (by norm_num)

theorem thresReachable_step {t : ℚ} (c : ThresholdCmd) (h : ThresReachable t) :
    ThresReachable (applyCmd t c) := by
  obtain ⟨k, hk2, hk20, rfl⟩ := h
  cases c with
  | inc =>
      by_cases hk : k = 20
      · subst hk
        refine ⟨20, by norm_num, by norm_num, ?_⟩
        show increase_threshold ((20 : ℚ)/20) = (20 : ℚ)/20
        norm_num [increase_threshold]
      · refine ⟨k + 1, by omega, by omega, ?_⟩
        have hone : ((k : ℚ)/20) ≠ 1 := by
          intro hone
          apply hk
          have hq : (k : ℚ) = 20 := by
            field_simp at hone
            exact_mod_cast hone
          exact_mod_cast hq
        show increase_threshold ((k : ℚ)/20) = ((k + 1 : Nat) : ℚ)/20
        rw [increase_eq_of_ne_one ⟨k, hk2, hk20, rfl⟩ hone, div_add_div_same]
        norm_cast
  | dec =>
      by_cases hk : k = 2
      · subst hk
        refine ⟨2, by norm_num, by norm_num, ?_⟩
        show decrease_threshold ((2 : ℚ)/20) = (2 : ℚ)/20
        norm_num [decrease_threshold]
      · refine ⟨k - 1, by omega, by omega, ?_⟩
        have hbot : ((k : ℚ)/20) ≠ 1/10 := by
          intro hbot
          apply hk
          have h2 : (k : ℚ) = 2 := by
            field_simp at hbot
            linarith
          exact_mod_cast h2
        show decrease_threshold ((k : ℚ)/20) = ((k - 1 : Nat) : ℚ)/20
        rw [decrease_eq_of_ne_bot ⟨k, hk2, hk20, rfl⟩ hbot, div_sub_div_same]
        congr 1
        rw [Nat.cast_sub (by omega : 1 ≤ k)]
        norm_num

theorem runCmds_reachable_from {t : ℚ} (cs : List ThresholdCmd)
    (h : ThresReachable t) : ThresReachable (runCmds t cs) := by
  induction cs generalizing t with
  | nil => exact h
  | cons c cs ih => exact ih (thresReachable_step c h)

theorem runCmds_reachable (cs : List ThresholdCmd) :
    ThresReachable (runCmds (1/2) cs) :=
  runCmds_reachable_from cs thresReachable_init

/-- C5.  Threshold clamp and step: starting from 0.5, after any finite
sequence of increase/decrease commands the threshold lies in
`[0.10, 1.00]`; a further increase command adds exactly 0.05 unless the
threshold is already 1.0 (where it is clamped, unchanged), and a further
decrease command subtracts exactly 0.05 unless the threshold is already
0.1 (where it is clamped, unchanged).  No command can fail. -/
theorem C5_threshold_clamp_and_step (cs : List ThresholdCmd) :
    (1/10 ≤ runCmds (1/2) cs ∧ runCmds (1/2) cs ≤ 1) ∧
    (runCmds (1/2) cs ≠ 1 →
      increase_threshold (runCmds (1/2) cs) = runCmds (1/2) cs + 1/20) ∧
    increase_threshold 1 = 1 ∧
    (runCmds (1/2) cs ≠ 1/10 →
      decrease_threshold (runCmds (1/2) cs) = runCmds (1/2) cs - 1/20) ∧
    decrease_threshold (1/10) = 1/10 :=
  ⟨thresReachable_bounds (runCmds_reachable cs),
   fun h => increase_eq_of_ne_one (runCmds_reachable cs) h,
   increase_at_top,
   fun h => decrease_eq_of_ne_bot (runCmds_reachable cs) h,
   decrease_at_bot⟩

/-- Witness for C5 at the concrete command sequence `[inc]`: the
threshold is 0.55, inside the bounds, and both step equations apply
exactly. -/
theorem C5_threshold_clamp_and_step_witness :
    (1/10 ≤ runCmds (1/2) [ThresholdCmd.inc] ∧ runCmds (1/2) [ThresholdCmd.inc] ≤ 1) ∧
    increase_threshold (runCmds (1/2) [ThresholdCmd.inc]) =
      runCmds (1/2) [ThresholdCmd.inc] + 1/20 ∧
    decrease_threshold (runCmds (1/2) [ThresholdCmd.inc]) =
      runCmds (1/2) [ThresholdCmd.inc] - 1/20 :=
  ⟨(C5_threshold_clamp_and_step [ThresholdCmd.inc]).1,
   (C5_threshold_clamp_and_step [ThresholdCmd.inc]).2.1 (by
      norm_num [runCmds, applyCmd, increase_threshold, min_def]),
   (C5_threshold_clamp_and_step [ThresholdCmd.inc]).2.2.2.1 (by
      norm_num [runCmds, applyCmd, increase_threshold, min_def])⟩

/-! ## Frame-rate estimator lemmas (C7) -/

theorem calculate_fps_lt {s : FpsState} (now : ℚ) (h : s.fps_counter < 30) :
    (calculate_fps s now).fps_counter < 30 := by
  unfold calculate_fps
  by_cases h30 : s.fps_counter + 1 ≥ 30
  · simp [h30]
  · simp [h30]
    omega

theorem runFps_partial (ts : List ℚ) :
    ∀ s : FpsState, s.fps_counter + ts.length < 30 →
      runFps s ts = ⟨s.fps_counter + ts.length, s.fps_start_time, s.current_fps⟩ := by
  induction ts with
  | nil =>
      intro s _
      simp only [runFps, List.foldl_nil, List.length_nil, Nat.add_zero]
  | cons t ts ih =>
      intro s h
      have hlt : ¬ s.fps_counter + 1 ≥ 30 := by
        simp only [List.length_cons] at h
        omega
      have hstep : calculate_fps s t = { s with fps_counter := s.fps_counter + 1 } := by
        unfold calculate_fps
        simp [hlt]
      show runFps (calculate_fps s t) ts = _
      rw [hstep, ih { s with fps_counter := s.fps_counter + 1 } (by
        simp only [List.length_cons] at h
        simpa using by omega)]
      simp only [List.length_cons]
      congr 1
      omega

/-- C7.  Frame-rate estimator windowing: each call increments the
counter; from a freshly reset window (counter 0, window start `w`,
published fps `f`), fewer than 30 calls leave the published fps and the
window start unchanged with the counter equal to the number of calls,
and the counter always stays below 30; exactly 30 calls whose last
reading is `w + d` publish `fps = 30 / d`, reset the counter to 0 and
move the window start to that last reading. -/
theorem C7_fps_window (w f d : ℚ) (pre : List ℚ) :
    (∀ (s : FpsState) (now : ℚ), s.fps_counter < 30 →
        (calculate_fps s now).fps_counter < 30) ∧
    (pre.length < 30 → runFps ⟨0, w, f⟩ pre = ⟨pre.length, w, f⟩) ∧
    (pre.length = 29 → 0 < d →
        runFps ⟨0, w, f⟩ (pre ++ [w + d]) = ⟨0, w + d, 30 / d⟩) := by
  refine ⟨fun s now h => calculate_fps_lt now h, ?_, ?_⟩
  · intro h
    simpa using runFps_partial pre ⟨0, w, f⟩ (by simpa using h)
  · intro h29 _
    have hpre : runFps ⟨0, w, f⟩ pre = ⟨29, w, f⟩ := by
      have := runFps_partial pre ⟨0, w, f⟩ (by simp [h29])
      simpa [h29] using this
    show runFps ⟨0, w, f⟩ (pre ++ [w + d]) = _
    rw [runFps, List.foldl_append]
    have hpre2 : List.foldl calculate_fps ⟨0, w, f⟩ pre = ⟨29, w, f⟩ := hpre
    rw [hpre2]
    show calculate_fps ⟨29, w, f⟩ (w + d) = _
    unfold calculate_fps
    norm_num

/-- Witness for C7: from a reset window at time 0, 29 calls leave fps 0
unchanged with counter 29, and a 30th call at time 1 publishes 30/1. -/
theorem C7_fps_window_witness :
    (calculate_fps ⟨0, 0, 0⟩ 0).fps_counter < 30 ∧
    runFps ⟨0, 0, 0⟩ (List.replicate 29 0) = ⟨(List.replicate 29 (0:ℚ)).length, 0, 0⟩ ∧
    runFps ⟨0, 0, 0⟩ (List.replicate 29 0 ++ [0 + 1]) = ⟨0, 0 + 1, 30 / 1⟩ :=
  ⟨(C7_fps_window 0 0 1 (List.replicate 29 0)).1 ⟨0, 0, 0⟩ 0 (by norm_num),
   (C7_fps_window 0 0 1 (List.replicate 29 0)).2.1 (by simp),
   (C7_fps_window 0 0 1 (List.replicate 29 0)).2.2 (by simp) (by norm_num)⟩

/-! ## History tracker lemmas (C6) -/

theorem recordHistory_empty (hist : List HistEntry) (now : Nat) :
    recordHistory hist [] now = hist := by
  simp [recordHistory]

theorem recordHistory_nonempty (hist : List HistEntry) {dets : List Detection}
    (now : Nat) (h : dets.isEmpty = false) (hle : hist.length ≤ 100) :
    recordHistory hist dets now =
      (hist ++ [(⟨now, dets.length, dets.map (·.class_name)⟩ : HistEntry)]).drop
        ((hist.length + 1) - 100) := by
  unfold recordHistory
  rw [h]
  simp only [Bool.false_eq_true, if_false]
  by_cases hc : (hist ++ [(⟨now, dets.length, dets.map (·.class_name)⟩ : HistEntry)]).length > 100
  · rw [if_pos hc, ← List.drop_one]
    congr 1
    simp only [List.length_append, List.length_cons, List.length_nil] at hc
    omega
  · rw [if_neg hc]
    have h0 : hist.length + 1 - 100 = 0 := by
      simp only [List.length_append, List.length_cons, List.length_nil] at hc
      omega
    rw [h0, List.drop_zero]

theorem recordHistory_length (hist : List HistEntry) {dets : List Detection}
    (now : Nat) (h : dets.isEmpty = false) (hle : hist.length ≤ 100) :
    (recordHistory hist dets now).length = min (hist.length + 1) 100 := by
  rw [recordHistory_nonempty hist now h hle]
  simp only [List.length_drop, List.length_append, List.length_cons, List.length_nil]
  omega

theorem recordHistory_getLast (hist : List HistEntry) {dets : List Detection}
    (now : Nat) (h : dets.isEmpty = false) :
    (recordHistory hist dets now).getLast? =
      some ⟨now, dets.length, dets.map (·.class_name)⟩ := by
  unfold recordHistory
  rw [h]
  simp only [Bool.false_eq_true, if_false]
  by_cases hc : (hist ++ [(⟨now, dets.length, dets.map (·.class_name)⟩ : HistEntry)]).length > 100
  · rw [if_pos hc]
    cases hist with
    | nil => simp at hc
    | cons a t =>
        simp only [List.cons_append, List.tail_cons]
        exact List.getLast?_concat _
  · rw [if_neg hc]
    exact List.getLast?_concat _

theorem frameEntries_cons (f : List Detection × Nat)
    (fs : List (List Detection × Nat)) :
    frameEntries (f :: fs) =
      if f.1.isEmpty then frameEntries fs
      else ⟨f.2, f.1.length, f.1.map (·.class_name)⟩ :: frameEntries fs := by
  unfold frameEntries
  by_cases h : f.1.isEmpty
  · simp [List.filter_cons, h]
  · simp [List.filter_cons, h]

theorem drop_append_of_le_length {α : Type _} {n : Nat} {l₁ l₂ : List α}
    (h : n ≤ l₁.length) : (l₁ ++ l₂).drop n = l₁.drop n ++ l₂ := by
  rw [List.drop_append_eq_append_drop, Nat.sub_eq_zero_of_le h, List.drop_zero]

theorem foldRecord_eq (frames : List (List Detection × Nat)) :
    ∀ hist : List HistEntry, hist.length ≤ 100 →
      frames.foldl (fun h f => recordHistory h f.1 f.2) hist =
        (hist ++ frameEntries frames).drop
          ((hist.length + (frameEntries frames).length) - 100) := by
  induction frames with
  | nil =>
      intro hist hle
      simp only [List.foldl_nil, frameEntries, List.filter_nil, List.map_nil,
        List.append_nil, List.length_nil, Nat.add_zero]
      rw [Nat.sub_eq_zero_of_le hle, List.drop_zero]
  | cons f fs ih =>
      intro hist hle
      rw [List.foldl_cons]
      by_cases h : f.1.isEmpty
      · have hrec : recordHistory hist f.1 f.2 = hist := by
          unfold recordHistory
          rw [if_pos h]
        rw [hrec, ih hist hle, frameEntries_cons, if_pos h]
      · have h' : f.1.isEmpty = false := by
          rwa [Bool.not_eq_true] at h
        rw [recordHistory_nonempty hist f.2 h' hle]
        set e : HistEntry := ⟨f.2, f.1.length, f.1.map (·.class_name)⟩ with he
        set L : List HistEntry := hist ++ [e] with hL
        set d : Nat := hist.length + 1 - 100 with hd
        have hLlen : L.length = hist.length + 1 := by
          simp [hL]
        have hdle : d ≤ L.length := by omega
        have hlen2 : (L.drop d).length ≤ 100 := by
          simp only [List.length_drop]
          omega
        rw [ih (L.drop d) hlen2, frameEntries_cons, if_neg (by simp [h'])]
        have hsplit : L.drop d ++ frameEntries fs = (L ++ frameEntries fs).drop d :=
          (drop_append_of_le_length hdle).symm
        rw [hsplit, List.drop_drop]
        have hassoc : hist ++ e :: frameEntries fs = L ++ frameEntries fs := by
          rw [hL, List.append_assoc, List.singleton_append]
        rw [hassoc]
        congr 1
        simp only [List.length_drop, hLlen, List.length_cons]
        omega

theorem runHistory_eq (frames : List (List Detection × Nat)) :
    runHistory frames =
      (frameEntries frames).drop ((frameEntries frames).length - 100) := by
  have := foldRecord_eq frames [] (by simp)
  simpa [runHistory] using this

/-- C6.  History tracker capacity and FIFO order: recording an empty
detection list never changes the history; recording a non-empty list
onto a history of at most 100 entries appends exactly one entry (found
at the back) and evicts the oldest exactly when the size would exceed
100, so the size becomes `min (n+1) 100`; the buffer always holds the
most recent (at most 100) entries in chronological order — it equals the
per-frame entry sequence with all but the last 100 dropped — and after
101 non-empty frames it is that sequence minus its first entry, whose
value is gone whenever it differs from the later ones, while the 101st
entry is present. -/
theorem C6_history_capacity_fifo (frames : List (List Detection × Nat)) :
    (∀ (hist : List HistEntry) (now : Nat), recordHistory hist [] now = hist) ∧
    (∀ (hist : List HistEntry) (dets : List Detection) (now : Nat),
       dets.isEmpty = false → hist.length ≤ 100 →
       (recordHistory hist dets now).length = min (hist.length + 1) 100 ∧
       (recordHistory hist dets now).getLast? =
         some ⟨now, dets.length, dets.map (·.class_name)⟩) ∧
    runHistory frames =
      (frameEntries frames).drop ((frameEntries frames).length - 100) ∧
    (runHistory frames).length ≤ 100 ∧
    ((frameEntries frames).length = 101 →
       runHistory frames = (frameEntries frames).tail) ∧
    ((frameEntries frames).length = 101 →
       ∀ e : HistEntry, (frameEntries frames).head? = some e →
         e ∉ (frameEntries frames).tail → e ∉ runHistory frames) ∧
    ((frameEntries frames).length = 101 →
       ∀ e : HistEntry, (frameEntries frames).getLast? = some e →
         e ∈ runHistory frames) := by
  have heq := runHistory_eq frames
  have htail : (frameEntries frames).length = 101 →
      runHistory frames = (frameEntries frames).tail := by
    intro h101
    rw [heq, h101]
    exact List.drop_one _
  refine ⟨recordHistory_empty,
    fun hist dets now h hle =>
      ⟨recordHistory_length hist now h hle, recordHistory_getLast hist now h⟩,
    heq, ?_, htail, ?_, ?_⟩
  · rw [heq]
    simp only [List.length_drop]
    omega
  · intro h101 e hhead hmem
    rw [htail h101]
    exact hmem
  · intro h101 e hlast
    rw [htail h101]
    rcases hfe : frameEntries frames with _ | ⟨a, t⟩
    · rw [hfe] at h101
      simp at h101
    · rcases t with _ | ⟨b, t2⟩
      · rw [hfe] at h101
        simp at h101
      · rw [hfe] at hlast
        rw [List.getLast?_cons_cons] at hlast
        simpa using List.mem_of_getLast?_eq_some hlast

/-- Witness for C6 at 101 concrete one-detection frames with clock
readings 0..100: recording an empty list is a no-op, a non-empty record
grows an empty history to one entry with that entry at the back, the
buffer equals the entry sequence minus its first element, the first
entry (time 0) is gone and the 101st (time 100) is present. -/
theorem C6_history_capacity_fifo_witness :
    recordHistory [] [] 5 = [] ∧
    (recordHistory [] [detPerson] 3).length = min (0 + 1) 100 ∧
    (recordHistory [] [detPerson] 3).getLast? = some ⟨3, 1, ["person"]⟩ ∧
    runHistory frames101 = (frameEntries frames101).tail ∧
    (⟨0, 1, ["person"]⟩ : HistEntry) ∉ runHistory frames101 ∧
    (⟨100, 1, ["person"]⟩ : HistEntry) ∈ runHistory frames101 := by
  have h101 : (frameEntries frames101).length = 101 := by decide
  have hhead : (frameEntries frames101).head? = some ⟨0, 1, ["person"]⟩ := by decide
  have hlast : (frameEntries frames101).getLast? = some ⟨100, 1, ["person"]⟩ := by
    decide
  have hnotin : (⟨0, 1, ["person"]⟩ : HistEntry) ∉ (frameEntries frames101).tail := by
    decide
  refine ⟨(C6_history_capacity_fifo frames101).1 [] 5,
    ((C6_history_capacity_fifo frames101).2.1 [] [detPerson] 3 (by decide) (by decide)).1,
    ?_,
    (C6_history_capacity_fifo frames101).2.2.2.2.1 h101,
    (C6_history_capacity_fifo frames101).2.2.2.2.2.1 h101 _ hhead hnotin,
    (C6_history_capacity_fifo frames101).2.2.2.2.2.2 h101 _ hlast⟩
  have := ((C6_history_capacity_fifo frames101).2.1 [] [detPerson] 3
    (by decide) (by decide)).2
  simpa using this

/-! ## Command routing (C8) -/

/-- C8.  Command routing: `q`/`Q` (113/81) sets the loop-termination
flag; `s`/`S` (115/83) toggles exactly `show_stats`, so two consecutive
presses restore the state; `p`/`P` (112/80) toggles exactly the pause
flag; `r`/`R` (114/82) empties the history and changes nothing else;
`+`/`=` (43/61) routes to the threshold increase and `-` (45) to the
threshold decrease; every other byte — including 255, the no-key
reading of `waitKey` — leaves the state entirely unchanged. -/
theorem C8_command_routing (st : LoopState) (k : Nat) :
    (handle_key st 113).quit = true ∧ (handle_key st 81).quit = true ∧
    handle_key st 115 = { st with show_stats := !st.show_stats } ∧
    handle_key st 83 = { st with show_stats := !st.show_stats } ∧
    handle_key (handle_key st 115) 115 = st ∧
    handle_key st 112 = { st with paused := !st.paused } ∧
    handle_key st 80 = { st with paused := !st.paused } ∧
    handle_key st 114 = { st with detection_history := [] } ∧
    handle_key st 82 = { st with detection_history := [] } ∧
    handle_key st 43 = { st with thres := increase_threshold st.thres } ∧
    handle_key st 61 = { st with thres := increase_threshold st.thres } ∧
    handle_key st 45 = { st with thres := decrease_threshold st.thres } ∧
    (k ∉ [113, 81, 115, 83, 112, 80, 114, 82, 43, 61, 45] →
      handle_key st k = st) := by
  refine ⟨rfl, rfl, rfl, rfl, ?_, rfl, rfl, rfl, rfl, rfl, rfl, rfl, ?_⟩
  · show handle_key { st with show_stats := !st.show_stats } 115 = st
    cases st
    simp [handle_key]
  · intro hk
    simp only [List.mem_cons, not_or, List.not_mem_nil] at hk
    obtain ⟨h1, h2, h3, h4, h5, h6, h7, h8, h9, h10, h11, -⟩ := hk
    unfold handle_key
    rw [if_neg (by tauto), if_neg (by tauto), if_neg (by tauto),
      if_neg (by tauto), if_neg (by tauto), if_neg (by tauto)]

/-- Witness for C8: the unrecognized byte 120 (`x`) leaves the concrete
entry state unchanged. -/
theorem C8_command_routing_witness : handle_key stDemo 120 = stDemo :=
  (C8_command_routing stDemo
    120).2.2.2.2.2.2.2.2.2.2.2.2 (by decide)

/-! ## Detection building (C10, C4) -/

theorem buildDetections_eq (classNames : List String) (rs : List (Int × ℚ × Box)) :
    buildDetections classNames rs =
      (rs.filter fun r =>
          decide (0 ≤ r.1 - 1 ∧ r.1 - 1 < (classNames.length : Int))).map
        (toDet classNames) := by
  have main : ∀ (rs : List (Int × ℚ × Box)) (acc : List Detection),
      rs.foldl (fun acc r =>
          if 0 ≤ r.1 - 1 ∧ r.1 - 1 < (classNames.length : Int) then
            acc ++ [toDet classNames r]
          else acc) acc =
        acc ++ (rs.filter fun r =>
            decide (0 ≤ r.1 - 1 ∧ r.1 - 1 < (classNames.length : Int))).map
          (toDet classNames) := by
    intro rs
    induction rs with
    | nil => intro acc; rw [List.foldl_nil, List.filter_nil, List.map_nil, List.append_nil]
    | cons r rs ih =>
        intro acc
        rw [List.foldl_cons]
        by_cases h : 0 ≤ r.1 - 1 ∧ r.1 - 1 < (classNames.length : Int)
        · rw [if_pos h, ih,
            List.filter_cons_of_pos (by exact decide_eq_true h),
            List.map_cons, List.append_assoc]
          rfl
        · rw [if_neg h, ih,
            List.filter_cons_of_neg (by simpa using h)]
  have hmain := main rs []
  rw [List.nil_append] at hmain
  exact hmain

/-- C10.  Out-of-range class ids are silently dropped: the detection
list built from the detector's `(classId, confidence, box)` triples
keeps, in order, exactly the triples with `0 ≤ classId - 1 <
len(classNames)`, turning each into its Detection record; a triple
outside that range contributes nothing. -/
theorem C10_out_of_range_class_ids_dropped (classNames : List String)
    (rs : List (Int × ℚ × Box)) :
    buildDetections classNames rs =
      (rs.filter fun r =>
          decide (0 ≤ r.1 - 1 ∧ r.1 - 1 < (classNames.length : Int))).map
        (toDet classNames) ∧
    ∀ d : Detection, d ∈ buildDetections classNames rs ↔
      ∃ r ∈ rs, (0 ≤ r.1 - 1 ∧ r.1 - 1 < (classNames.length : Int)) ∧
        d = toDet classNames r := by
  refine ⟨buildDetections_eq classNames rs, fun d => ?_⟩
  rw [buildDetections_eq]
  simp only [List.mem_map, List.mem_filter, decide_eq_true_eq]
  constructor
  · rintro ⟨r, ⟨hr, hcond⟩, rfl⟩
    exact ⟨r, hr, hcond, rfl⟩
  · rintro ⟨r, hr, hcond, rfl⟩
    exact ⟨r, ⟨hr, hcond⟩, rfl⟩

/-- C4 counterexample.  The triple `(classId 1, confidence 1.5, box of
width and height −5)` is malformed in the spec's sense (confidence
outside `[0,1]`, non-positive extents), yet the code keeps it: it
becomes a Detection, is recorded into the history, and is rendered,
instead of being dropped. -/
theorem C4_counterexample :
    buildDetections ["person"] [(1, 3/2, ⟨0, 0, -5, -5⟩)] =
      [{ box := ⟨0, 0, -5, -5⟩, class_name := "person",
         confidence := 3/2, class_id := 1 }] ∧
    recordHistory []
        (buildDetections ["person"] [(1, 3/2, ⟨0, 0, -5, -5⟩)]) 7 =
      [⟨7, 1, ["person"]⟩] ∧
    draw_enhanced_bounding_boxes tsTen rawFrame
        (buildDetections ["person"] [(1, 3/2, ⟨0, 0, -5, -5⟩)]) ≠ rawFrame := by
  refine ⟨rfl, rfl, fun hcontra => ?_⟩
  exact absurd (congrArg (fun i => i.ops.length) hcontra) (by decide)

/-- C4 amended.  The only validation applied to detector results is the
class-id range check: every triple whose `classId - 1` indexes the
class-name list becomes a Detection regardless of its box extents or
confidence; the built list is empty exactly when no triple passes that
check, and an empty built list leaves the history unchanged and draws
nothing — no error path exists (detector exceptions are caught and
yield an empty list). -/
theorem C4_validation_only_class_id (classNames : List String)
    (rs : List (Int × ℚ × Box)) :
    (∀ r ∈ rs, 0 ≤ r.1 - 1 → r.1 - 1 < (classNames.length : Int) →
        toDet classNames r ∈ buildDetections classNames rs) ∧
    (buildDetections classNames rs = [] ↔
        ∀ r ∈ rs, ¬(0 ≤ r.1 - 1 ∧ r.1 - 1 < (classNames.length : Int))) ∧
    (∀ (hist : List HistEntry) (now : Nat),
        buildDetections classNames rs = [] →
        recordHistory hist (buildDetections classNames rs) now = hist) ∧
    (∀ (ts : TextSizeFn) (img : Img),
        buildDetections classNames rs = [] →
        draw_enhanced_bounding_boxes ts img (buildDetections classNames rs) = img) := by
  refine ⟨?_, ?_, ?_, ?_⟩
  · intro r hr h0 h1
    rw [buildDetections_eq]
    exact List.mem_map_of_mem _ (List.mem_filter.2 ⟨hr, by simp [h0, h1]⟩)
  · rw [buildDetections_eq]
    simp [List.filter_eq_nil_iff]
  · intro hist now hnil
    rw [hnil]
    exact recordHistory_empty hist now
  · intro ts img hnil
    rw [hnil]
    unfold draw_enhanced_bounding_boxes
    simp

/-- Witness for the amended C4: the malformed triple with in-range class
id 1 is kept, while a triple with out-of-range class id 0 yields the
empty list, an unchanged history and an unchanged frame. -/
theorem C4_validation_only_class_id_witness :
    toDet ["person"] (1, 3/2, ⟨0, 0, -5, -5⟩) ∈
      buildDetections ["person"] [(1, 3/2, ⟨0, 0, -5, -5⟩)] ∧
    recordHistory [] (buildDetections ["person"] [(0, 1/2, ⟨0, 0, 5, 5⟩)]) 4 = [] ∧
    draw_enhanced_bounding_boxes tsTen rawFrame
      (buildDetections ["person"] [(0, 1/2, ⟨0, 0, 5, 5⟩)]) = rawFrame :=
  ⟨(C4_validation_only_class_id ["person"] [(1, 3/2, ⟨0, 0, -5, -5⟩)]).1
      _ (by simp) (by decide) (by decide),
   (C4_validation_only_class_id ["person"] [(0, 1/2, ⟨0, 0, 5, 5⟩)]).2.2.1 [] 4 rfl,
   (C4_validation_only_class_id ["person"] [(0, 1/2, ⟨0, 0, 5, 5⟩)]).2.2.2
      tsTen rawFrame rfl⟩

/-! ## Footer deduplication (C1) -/

theorem mem_firstSeenAux (a : String) :
    ∀ (xs seen : List String), a ∈ firstSeenAux seen xs ↔ a ∈ xs ∧ a ∉ seen := by
  intro xs
  induction xs with
  | nil =>
      intro seen
      simp [firstSeenAux]
  | cons b rest ih =>
      intro seen
      unfold firstSeenAux
      by_cases hb : b ∈ seen
      · rw [if_pos hb, ih]
        simp only [List.mem_cons]
        constructor
        · rintro ⟨h1, h2⟩
          exact ⟨Or.inr h1, h2⟩
        · rintro ⟨h1 | h1, h2⟩
          · subst h1
            exact absurd hb h2
          · exact ⟨h1, h2⟩
      · rw [if_neg hb]
        simp only [List.mem_cons, ih, not_or]
        constructor
        · rintro (rfl | ⟨h1, h2, h3⟩)
          · exact ⟨Or.inl rfl, hb⟩
          · exact ⟨Or.inr h1, h3⟩
        · rintro ⟨h1 | h1, h2⟩
          · exact Or.inl h1
          · by_cases hab : a = b
            · exact Or.inl hab
            · exact Or.inr ⟨h1, hab, h2⟩

theorem nodup_firstSeenAux :
    ∀ (xs seen : List String), (firstSeenAux seen xs).Nodup := by
  intro xs
  induction xs with
  | nil =>
      intro seen
      simp [firstSeenAux]
  | cons b rest ih =>
      intro seen
      unfold firstSeenAux
      by_cases hb : b ∈ seen
      · rw [if_pos hb]
        exact ih _
      · rw [if_neg hb]
        refine List.nodup_cons.2 ⟨?_, ih _⟩
        intro hmem
        rcases (mem_firstSeenAux b rest (b :: seen)).1 hmem with ⟨-, h2⟩
        exact h2 (List.mem_cons_self b seen)

theorem mem_firstSeen (a : String) (xs : List String) :
    a ∈ firstSeen xs ↔ a ∈ xs := by
  simp [firstSeen, mem_firstSeenAux]

theorem firstSeen_nodup (xs : List String) : (firstSeen xs).Nodup :=
  nodup_firstSeenAux xs []

/-- C1 counterexample.  `["dog", "cat"]` is a legitimate CPython
enumeration of `set(["cat", "cat", "dog"])` (set iteration order is
hash-dependent, not insertion-ordered), and the footer text it produces
differs from the first-seen-order listing the claim requires. -/
theorem C1_counterexample :
    IsPySetList ["cat", "cat", "dog"] ["dog", "cat"] ∧
    objects_text ["dog", "cat"] ≠ objects_text (firstSeen ["cat", "cat", "dog"]) := by
  refine ⟨⟨by decide, fun a => ?_⟩, by decide⟩
  simp only [List.mem_cons, List.not_mem_nil, or_false]
  tauto

/-- C1 amended.  The footer lists each distinct class name exactly once
— the enumeration is a permutation of the first-seen deduplication, but
its order is the hash-dependent set order, not necessarily first-seen
order — joins at most the first 4 names of that enumeration, and
appends the ellipsis exactly when more than 4 distinct names exist; the
resulting line is drawn by the footer pass whenever statistics are on
and a detection exists. -/
theorem C1_footer_dedup (names uniq : List String) (h : IsPySetList names uniq) :
    uniq.Nodup ∧
    uniq.Perm (firstSeen names) ∧
    uniq.length = (firstSeen names).length ∧
    (4 < uniq.length ↔ 4 < (firstSeen names).length) ∧
    ∀ (setList : List String → List String) (st : LoopState) (img : Img)
      (dets : List Detection) (now : Nat),
      st.show_stats = true → dets.map (·.class_name) = names →
      dets.isEmpty = false → setList names = uniq →
      DrawOp.text (objects_text uniq) (10, img.height - 20) (1/2) (255, 255, 100) 1 ∈
        (draw_footer_stats setList st img dets now).ops := by
  have hperm : uniq.Perm (firstSeen names) :=
    (List.perm_ext_iff_of_nodup h.1 (firstSeen_nodup names)).2
      (fun a => (h.2 a).trans (mem_firstSeen a names).symm)
  refine ⟨h.1, hperm, hperm.length_eq, by rw [hperm.length_eq], ?_⟩
  intro setList st img dets now hstats hmap hdets hset
  have hnames : names.isEmpty = false := by
    rcases dets with _ | ⟨d, ds⟩
    · simp at hdets
    · rw [← hmap]
      rfl
  unfold draw_footer_stats
  rw [hstats]
  simp only [Bool.not_true, Bool.false_eq_true, if_false, hdets, Bool.not_false,
    if_true, hmap, hnames, hset]
  simp

/-- Witness for the amended C1 at names `["cat", "cat", "dog"]` with the
enumeration `["cat", "dog"]`: the enumeration is a permutation of the
first-seen deduplication and its footer line is among the drawing calls
of a concrete footer pass. -/
theorem C1_footer_dedup_witness :
    (["cat", "dog"] : List String).Nodup ∧
    (["cat", "dog"] : List String).Perm (firstSeen ["cat", "cat", "dog"]) ∧
    DrawOp.text (objects_text ["cat", "dog"]) (10, rawFrame.height - 20) (1/2)
        (255, 255, 100) 1 ∈
      (draw_footer_stats (fun _ => ["cat", "dog"]) stDemo rawFrame
        [⟨⟨0, 0, 1, 1⟩, "cat", 1/2, 1⟩, ⟨⟨0, 0, 1, 1⟩, "cat", 1/2, 1⟩,
         ⟨⟨0, 0, 1, 1⟩, "dog", 1/2, 1⟩] 0).ops := by
  have h : IsPySetList ["cat", "cat", "dog"] ["cat", "dog"] := by
    refine ⟨by decide, fun a => ?_⟩
    simp only [List.mem_cons, List.not_mem_nil, or_false]
    tauto
  have main := C1_footer_dedup ["cat", "cat", "dog"] ["cat", "dog"] h
  exact ⟨main.1, main.2.1,
    main.2.2.2.2 (fun _ => ["cat", "dog"]) stDemo rawFrame _ 0 rfl rfl rfl rfl⟩

/-! ## Label placement (C3) -/

/-- C3 counterexample.  For the detection with box top edge `y = 0` and
a 10 px text measurement, the label-background rectangle emitted by the
box pass is drawn from `(100, 65)` to `(125, 90)`: its TOP edge sits at
65, above the 90 px boundary, refuting the claim that the background's
top edge is always at or below 90 px — the code clamps `label_y`, the
background's BOTTOM edge, instead. -/
theorem C3_counterexample :
    detPerson.box.y < 90 ∧
    (labelBgRect tsTen detPerson).1.2 = 65 ∧
    DrawOp.rect (100, 65) (125, 90) (255, 100, 100) (-1) ∈ boxOps tsTen 0 detPerson ∧
    ¬ (∀ (ts : TextSizeFn) (d : Detection), d.box.y < 90 →
        90 ≤ (labelBgRect ts d).1.2) := by
  refine ⟨by decide, rfl, by decide, fun hall => ?_⟩
  exact absurd (hall tsTen detPerson (by decide)) (by decide)

/-- C3 amended.  The box pass clamps the label background's BOTTOM edge
to at least the 90 px header boundary: the bottom edge is
`max(y, 90) ≥ 90` (exactly 90 whenever the box top edge is at or above
the boundary), while the top edge sits `label_bg_height` above that
bottom edge and may therefore lie above 90 px. -/
theorem C3_label_bottom_clamped (ts : TextSizeFn) (d : Detection) :
    (labelBgRect ts d).2.2 = max d.box.y 90 ∧
    90 ≤ (labelBgRect ts d).2.2 ∧
    (d.box.y ≤ 90 → (labelBgRect ts d).2.2 = 90) ∧
    (labelBgRect ts d).1.2 = max d.box.y 90 - label_bg_height ts d :=
  ⟨rfl, le_max_right _ _, fun h => max_eq_right h, rfl⟩

/-- Witness for the amended C3: for the concrete detection with box top
edge 0, the label background's bottom edge is clamped to exactly 90. -/
theorem C3_label_bottom_clamped_witness :
    (labelBgRect tsTen detPerson).2.2 = 90 :=
  (C3_label_bottom_clamped tsTen detPerson).2.2.1 (by decide)

/-! ## Compositor determinism (C2) -/

/-- C2 counterexample.  With statistics on, composing the same
(frame, detections, session-state) triple at wall-clock readings 0 s and
1 s produces different outputs: the footer prints
`datetime.now().strftime("%H:%M:%S")`, so the drawn text differs
("…00:00:00" vs "…00:00:01"), refuting byte-identity independent of
wall-clock time. -/
theorem C2_counterexample :
    composeFrame cfgDemo stDemo rawFrame [] 0 ≠
      composeFrame cfgDemo stDemo rawFrame [] 1 := by
  intro h
  have h2 := congrArg (fun img =>
    match img.ops.getLast? with
    | some (DrawOp.text s _ _ _ _) => s
    | _ => "") h
  exact absurd h2 (by decide)

/-- C2 amended.  The compositor is deterministic once the wall-clock
second and the process's set-enumeration order are fixed: it is a pure
function of (frame, detections, session state, clock reading), two
clock readings with the same `%H:%M:%S` rendering give identical
output, and when `show_stats` is off the output is independent of the
clock entirely; but with statistics on the footer's timestamp makes the
output depend on the wall clock, contrary to the original claim. -/
theorem C2_determinism_given_clock (cfg : Config) (st : LoopState) (img : Img)
    (dets : List Detection) (now now2 : Nat) :
    (timeHMS now = timeHMS now2 →
      composeFrame cfg st img dets now = composeFrame cfg st img dets now2) ∧
    (st.show_stats = false →
      composeFrame cfg st img dets now = composeFrame cfg st img dets now2) := by
  constructor
  · intro h
    unfold composeFrame draw_footer_stats
    rw [h]
  · intro h
    unfold composeFrame draw_footer_stats
    rw [h]
    simp

/-- Witness for the amended C2: two invocations at the same clock second
agree, and with statistics off invocations at seconds 0 and 5 agree. -/
theorem C2_determinism_given_clock_witness :
    composeFrame cfgDemo stDemo rawFrame [] 3 =
      composeFrame cfgDemo stDemo rawFrame [] 3 ∧
    composeFrame cfgDemo stNoStats rawFrame [] 0 =
      composeFrame cfgDemo stNoStats rawFrame [] 5 :=
  ⟨(C2_determinism_given_clock cfgDemo stDemo rawFrame [] 3 3).1 rfl,
   (C2_determinism_given_clock cfgDemo stNoStats rawFrame [] 0 5).2 rfl⟩

/-! ## Paused-frame reuse (C9) -/

/-- C9.  Failing input: iteration 1 acquires `rawFrame`, draws on it and
ends with the key `p` (pause); iteration 2 then runs paused.  The frame
handed to the drawing pipeline in iteration 2 is the `img` loop
variable, which at that point is the fully annotated display output of
iteration 1 (same source frame, 5 drawing calls already applied) — not
the raw last-acquired camera frame the claim (and the spec's "reuse the
last successfully acquired frame") describes.  Each paused iteration
therefore re-blends and re-draws on top of the previous composite. -/
theorem C9_paused_frame_reuse_bug :
    stAfterFirst.paused = true ∧
    frameHanded stAfterFirst inpSecond = some stAfterFirst.img ∧
    stAfterFirst.img.src = rawFrame.src ∧
    stAfterFirst.img.ops.length = 5 ∧
    stAfterFirst.img ≠ rawFrame ∧
    (stepIter cfgDemo stAfterFirst inpSecond).2 =
      some (composeFrame cfgDemo stAfterFirst stAfterFirst.img [] inpSecond.clock) := by
  refine ⟨rfl, rfl, rfl, by decide, fun h => ?_, rfl⟩
  exact absurd (congrArg (fun i => i.ops.length) h) (by decide)

end AngelEyes
